import Mathlib

/-
  Shallow embedding of `blogscrapper.py` (adn770/blogscrapper).

  Python strings are modelled as Lean `String` (manipulated through
  `List Char` where character-level operations matter); the BeautifulSoup
  DOM is modelled by the inductive `Node` below; fallible operations
  (Python `KeyError` on a missing attribute) return `Except String _`;
  the filesystem and HTTP layer are modelled as explicit parameters
  (`fsHas : String → Bool`, `pages/fetch : String → Node`) and effect
  traces (lists of requested URLs and saved files).
-/

namespace Blog

/-! ### Python string primitives (on `List Char`) -/

/-- Python `s.startswith(p)` on character lists. -/
def startsWithL (p s : List Char) : Bool :=
  match p, s with
  | [], _ => true
  | _ :: _, [] => false
  | a :: ps, b :: ss => a = b && startsWithL ps ss

/-- Python `p in s` (substring containment) on character lists. -/
def hasSubL (p : List Char) : List Char → Bool
  | [] => startsWithL p []
  | c :: ss => startsWithL p (c :: ss) || hasSubL p ss

/-- Python `s.strip()` (whitespace from both ends). -/
def pyStripL (s : List Char) : List Char :=
  ((s.dropWhile Char.isWhitespace).reverse.dropWhile Char.isWhitespace).reverse

/-- Python `s.rstrip(c)` for a single strip character. -/
def pyRstripL (c : Char) (s : List Char) : List Char :=
  (s.reverse.dropWhile (fun x => x = c)).reverse

/-- Split a character list at the first occurrence of `c`:
`some (before, after)` when `c` occurs, `none` otherwise. -/
def breakAt (c : Char) : List Char → Option (List Char × List Char)
  | [] => none
  | x :: xs =>
    if x = c then some ([], xs)
    else
      match breakAt c xs with
      | none => none
      | some (pre, post) => some (x :: pre, post)

/-- Python `s.split(c, n)[-1]`: the remainder after at most `n` splits
(the last element of the maxsplit-bounded split). -/
def pySplitTail (c : Char) : Nat → List Char → List Char
  | 0, s => s
  | n + 1, s =>
    match breakAt c s with
    | none => s
    | some (_, post) => pySplitTail c n post

/-- Python `s[-n:]` (on Nat-truncated subtraction, matching the
whole-string result for short inputs). -/
def lastN (n : Nat) (s : List Char) : List Char :=
  s.drop (s.length - n)

/-! ### String-level wrappers -/

/-- Python `s.startswith(p)` on `String`. -/
def strStartsWith (s p : String) : Bool := startsWithL p.toList s.toList

/-- Python `needle in hay` on `String`. -/
def strHas (hay needle : String) : Bool := hasSubL needle.toList hay.toList

/-- Python `s.strip()` on `String`. -/
def strStrip (s : String) : String := String.mk (pyStripL s.toList)

/-- Python `s.rstrip("/")` on `String`. -/
def strRstripSlash (s : String) : String := String.mk (pyRstripL '/' s.toList)

/-- Python `s.lower()` on `String` (ASCII lowering). -/
def strLower (s : String) : String := String.mk (s.toList.map Char.toLower)

/-! ### The DOM model -/

/-- A parsed HTML node: an element carries its tag name, the (multi-valued)
class attribute, the remaining attributes as an association list, and its
children in document order; or a text node. -/
inductive Node where
  | elem (tag : String) (classes : List String) (attrs : List (String × String))
      (children : List Node)
  | text (s : String)

/-- Attribute association-list lookup (first binding wins). -/
def lookupA (k : String) : List (String × String) → Option String
  | [] => none
  | (k2, v) :: rest => if k2 = k then some v else lookupA k rest

/-- `node[attr]` access returning `none` when absent (a Python `KeyError`). -/
def attrOf (n : Node) (k : String) : Option String :=
  match n with
  | .text _ => none
  | .elem _ _ attrs _ => lookupA k attrs

/-- The children of a node (text nodes have none). -/
def childrenOf : Node → List Node
  | .text _ => []
  | .elem _ _ _ ch => ch

/-- Tag test. -/
def isTagP (t : String) (n : Node) : Bool :=
  match n with
  | .elem tag _ _ _ => tag = t
  | .text _ => false

/-- BeautifulSoup class matching for `class_=c`: `c` is one of the element's
classes, or `c` (possibly containing spaces) equals the full joined class
attribute string. -/
def classMatch (c : String) (n : Node) : Bool :=
  match n with
  | .elem _ cls _ _ => cls.contains c || String.intercalate " " cls = c
  | .text _ => false

/-- `find_all(t, class_=c)` node test. -/
def isTagClassP (t c : String) (n : Node) : Bool :=
  isTagP t n && classMatch c n

/-- `find_all(t, [c1, c2, ...])` node test (any of the classes matches). -/
def isTagClassAnyP (t : String) (cs : List String) (n : Node) : Bool :=
  isTagP t n && cs.any (fun c => classMatch c n)

/-- `find_all(t, id=i)` node test. -/
def isTagIdP (t i : String) (n : Node) : Bool :=
  isTagP t n && (attrOf n "id" == some i)

mutual

/-- All strict descendants of a node matching `p`, in document (preorder)
order — BeautifulSoup `find_all`, which searches descendants only and also
reports matches nested inside other matches. -/
def findAllN (p : Node → Bool) : Node → List Node
  | .text _ => []
  | .elem _ _ _ ch => findAllL p ch

/-- `find_all` over a list of sibling subtrees, in document order. -/
def findAllL (p : Node → Bool) : List Node → List Node
  | [] => []
  | n :: rest =>
    (if p n then [n] else []) ++ findAllN p n ++ findAllL p rest

end

/-- BeautifulSoup `find`: the first matching strict descendant. -/
def findN (p : Node → Bool) (n : Node) : Option Node :=
  (findAllN p n).head?

mutual

/-- BeautifulSoup `.text`: concatenation of all descendant strings. -/
def textOfNode : Node → String
  | .text s => s
  | .elem _ _ _ ch => textOfList ch

/-- `.text` over a list of sibling subtrees. -/
def textOfList : List Node → String
  | [] => ""
  | n :: rest => textOfNode n ++ textOfList rest

end

mutual

/-- One `find_all(...)` + `decompose()` pass of `clean_html`: remove every
strict descendant matching `p` (the root itself is never removed, matching
`content.find_all`, which searches descendants only). -/
def removeAllN (p : Node → Bool) : Node → Node
  | .text s => .text s
  | .elem t cls attrs ch => .elem t cls attrs (removeAllL p ch)

/-- Descendant removal over a list of sibling subtrees. -/
def removeAllL (p : Node → Bool) : List Node → List Node
  | [] => []
  | n :: rest =>
    if p n then removeAllL p rest else removeAllN p n :: removeAllL p rest

end

/-- `clean_html` noise tests, in source order (lines 93-104). -/
def isSharedaddyDiv (n : Node) : Bool := isTagClassP "div" "sharedaddy" n

/-- `find_all("div", class_="entry-meta")` test. -/
def isEntryMetaDiv (n : Node) : Bool := isTagClassP "div" "entry-meta" n

/-- `find_all("div", id="comments")` test. -/
def isCommentsDiv (n : Node) : Bool := isTagIdP "div" "comments" n

/-- `find_all("script")` test. -/
def isScriptTag (n : Node) : Bool := isTagP "script" n

/-- `find_all("small")` test. -/
def isSmallTag (n : Node) : Bool := isTagP "small" n

/-- `find_all("footer")` test. -/
def isFooterTag (n : Node) : Bool := isTagP "footer" n

/-- A node matching any entry of `clean_html`'s fixed noise list. -/
def isNoise (n : Node) : Bool :=
  isSharedaddyDiv n || isEntryMetaDiv n || isCommentsDiv n ||
    isScriptTag n || isSmallTag n || isFooterTag n

/-- `clean_html` (lines 92-105): six sequential remove-all passes, source
order; since each pass removes by a property intrinsic to the node, the
sequential passes remove exactly the descendants matching any noise test. -/
def clean_html (content : Node) : Node :=
  removeAllN isFooterTag
    (removeAllN isSmallTag
      (removeAllN isScriptTag
        (removeAllN isCommentsDiv
          (removeAllN isEntryMetaDiv
            (removeAllN isSharedaddyDiv content)))))

/-! ### Platform classifier (lines 147-179, 259-267) -/

/-- The scraper's platform tag (`class Mode(Enum)`). -/
inductive Mode where
  | UNKNOWN
  | BLOGSPOT
  | WORDPRESS
deriving DecidableEq

/-- `has_id_as_meta(id, content)` (lines 147-152): some `meta` element has a
`content` attribute whose lowering contains `id`. -/
def has_id_as_meta (i : String) (content : Node) : Bool :=
  (findAllN (isTagP "meta") content).any fun m =>
    match attrOf m "content" with
    | some v => strHas (strLower v) i
    | none => false

/-- The iteration inside `is_blogspot`: scan `link` elements for an href
containing "blogger"; the href access is unguarded, so a `link` element
without an href raises a `KeyError` (modelled as `Except.error`). -/
def goBlogspot : List Node → Except String Bool
  | [] => .ok false
  | l :: rest =>
    match attrOf l "href" with
    | none => .error "KeyError: href"
    | some h => if strHas h "blogger" then .ok true else goBlogspot rest

/-- `is_blogspot(content)` (lines 154-158). -/
def is_blogspot (content : Node) : Except String Bool :=
  goBlogspot (findAllN (isTagP "link") content)

/-- `is_wordpress(content)` (lines 160-169): a wordpress meta marker, an
anchor with a guarded href containing "wordpress", or the presence of at
least one `article` element. -/
def is_wordpress (content : Node) : Bool :=
  has_id_as_meta "wordpress" content ||
    (findAllN (isTagP "a") content).any (fun l =>
      match attrOf l "href" with
      | some h => strHas h "wordpress"
      | none => false) ||
    !(findAllN (isTagP "article") content).isEmpty

/-- `Scrapper.autoconfigure` (lines 259-267): a no-op unless the mode is
`UNKNOWN`; otherwise classify by URL substring or page markers, in source
order (short-circuiting, so `is_blogspot`'s possible `KeyError` is reached
only when the URL test fails). -/
def autoconfigure (mode : Mode) (selfUrl : String) (content : Node) :
    Except String Mode :=
  match mode with
  | .BLOGSPOT => .ok .BLOGSPOT
  | .WORDPRESS => .ok .WORDPRESS
  | .UNKNOWN =>
    if strHas selfUrl "blogspot" then .ok .BLOGSPOT
    else
      match is_blogspot content with
      | .error e => .error e
      | .ok true => .ok .BLOGSPOT
      | .ok false =>
        if strHas selfUrl "wordpress" then .ok .WORDPRESS
        else if is_wordpress content then .ok .WORDPRESS
        else .ok .UNKNOWN

/-! ### Article lister (lines 269-291) -/

/-- The noise-feed prefixes of `article_filtered` (lines 273-274). -/
def noiseFeedburner : String := "http://feeds.feedburner.com"

/-- The audio noise prefix. -/
def noiseAudio : String := "http://audio/"

/-- `article_filtered(article)` (lines 270-275): the first anchor's href is
tested against the noise prefixes with an unguarded `link['href']` access
(`Except.error` when the anchor has no href); a summary with no anchor at
all returns `True` (filtered out). -/
def article_filtered (article : Node) : Except String Bool :=
  match findN (isTagP "a") article with
  | some link =>
    match attrOf link "href" with
    | none => .error "KeyError: href"
    | some h =>
      .ok (strStartsWith h noiseFeedburner || strStartsWith h noiseAudio)
  | none => .ok true

/-- The per-mode candidate summaries of `list_articles` before the noise
filter (lines 277-289), in document order. -/
def list_candidates (mode : Mode) (content : Node) : List Node :=
  match mode with
  | .BLOGSPOT =>
    let a0 := findAllN (isTagClassAnyP "div" ["post-title", "entry-title"]) content
    if !a0.isEmpty then a0 else
      let a1 := findAllN (isTagClassAnyP "h1" ["post-title", "entry-title"]) content
      if !a1.isEmpty then a1 else
        let a2 := findAllN (isTagClassAnyP "h2" ["post-title", "entry-title"]) content
        if !a2.isEmpty then a2 else
          findAllN (isTagClassAnyP "h3" ["post-title", "entry-title"]) content
  | .WORDPRESS =>
    let a0 := findAllN (isTagP "article") content
    if !a0.isEmpty then a0 else
      findAllN (isTagClassAnyP "div" ["post", "type-post", "item entry"]) content
  | .UNKNOWN => []

/-- The Python list comprehension of line 290: keep the summaries the noise
filter rejects, propagating the first `KeyError` raised. -/
def filterSummaries : List Node → Except String (List Node)
  | [] => .ok []
  | a :: rest =>
    match article_filtered a with
    | .error e => .error e
    | .ok true => filterSummaries rest
    | .ok false =>
      match filterSummaries rest with
      | .error e => .error e
      | .ok l => .ok (a :: l)

/-- `Scrapper.list_articles` (lines 269-291). -/
def list_articles (mode : Mode) (content : Node) : Except String (List Node) :=
  filterSummaries (list_candidates mode content)

/-! ### Pagination walker (lines 223-257) -/

/-- The Python `for link in div.find_all("a"): if self.nav in link.text:
break` loop (lines 236-238): at the first anchor whose text contains the
label, break with it; past the end of a nonempty list the loop variable
keeps its final value, so the LAST anchor is retained; an empty anchor
list leaves `link` as `None`. -/
def pickByNav (nav : String) : List Node → Option Node
  | [] => none
  | [a] => some a
  | a :: b :: rest =>
    if strHas (textOfNode a) nav then some a else pickByNav nav (b :: rest)

/-- The per-container link choice of lines 233-238: the first anchor when no
label is known (the falsy `not self.nav` test, with the label modelled as a
plain string whose empty value is falsy), else the label scan. -/
def wpDivLink (nav : String) (div : Node) : Option Node :=
  if nav = "" then findN (isTagP "a") div
  else pickByNav nav (findAllN (isTagP "a") div)

/-- The WordPress container priority list (lines 229-230). -/
def wpNavKeys : List String :=
  ["fright", "archive-navigation", "content-nav", "nav-previous", "navigation"]

/-- The container loop of lines 229-240: first key whose `div` exists and
yields a link wins; a found container yielding no link falls through to the
next key. -/
def wpContainerLink (nav : String) (content : Node) : List String → Option Node
  | [] => none
  | key :: rest =>
    match findN (isTagClassP "div" key) content with
    | none => wpContainerLink nav content rest
    | some div =>
      match wpDivLink nav div with
      | some l => some l
      | none => wpContainerLink nav content rest

/-- The full link discovery of `extract_next_url` (lines 226-247), per mode,
including the generic WordPress fallbacks. -/
def nextLink (mode : Mode) (nav : String) (content : Node) : Option Node :=
  match mode with
  | .BLOGSPOT => findN (isTagClassP "a" "blog-pager-older-link") content
  | .WORDPRESS =>
    match wpContainerLink nav content wpNavKeys with
    | some l => some l
    | none =>
      match findN (isTagClassP "a" "next") content with
      | some l => some l
      | none =>
        match findN (isTagClassP "a" "page-numbers") content with
        | some l => some l
        | none => findN (isTagClassP "a" "pagination__item--next") content
  | .UNKNOWN => none

/-- `Scrapper.extract_next_url` (lines 223-257): returns the next URL (if
any) and the updated pagination label; lines 250-254 capture the label from
the first resolved link and absolutize a leading-slash href by prefixing
the root URL; the unguarded `link['href']` access is an `Except.error`. -/
def extract_next_url (mode : Mode) (nav : String) (selfUrl : String)
    (content : Node) : Except String (Option String × String) :=
  match nextLink mode nav content with
  | none => .ok (none, nav)
  | some link =>
    let nav2 := if nav = "" then strStrip (textOfNode link) else nav
    match attrOf link "href" with
    | none => .error "KeyError: href"
    | some href =>
      .ok (some (if strStartsWith href "/" then selfUrl ++ href else href), nav2)

/-! ### Content extractor (lines 297-319) -/

/-- `Scrapper.extract_post` (lines 297-319): the per-mode fallback chain of
container selectors; `none` when no container matches. -/
def extract_post (mode : Mode) (content : Node) : Option Node :=
  match mode with
  | .BLOGSPOT =>
    match findN (isTagClassP "div" "post-body entry-content") content with
    | some p => some p
    | none => findN (isTagClassP "div" "post") content
  | .WORDPRESS =>
    match findN (isTagP "article") content with
    | some p => some p
    | none =>
      match findN (isTagClassP "div" "entry") content with
      | some p => some p
      | none =>
        match findN (isTagClassP "div" "post-entry") content with
        | some p => some p
        | none =>
          match findN (isTagClassP "div" "entry-content") content with
          | some p => some p
          | none =>
            match findN (isTagClassP "div" "content") content with
            | some p => some p
            | none =>
              match findN (isTagClassP "div" "content-area") content with
              | some p => some p
              | none => findN (isTagClassP "div" "storycontent") content
  | .UNKNOWN => none

/-! ### Filename derivation (lines 171-173, 340-344) -/

/-- The character class of `re.sub(r'(?u)[^-\w.]', '', s)`, with `\w`
modelled as ASCII alphanumeric or underscore. -/
def keepChar (c : Char) : Bool :=
  c = '-' || c = '.' || c = '_' || c.isAlphanum

/-- `title_to_filename(s)` (lines 171-173): strip, spaces to underscores,
drop characters outside `[-\w.]`. -/
def title_to_filename (t : List Char) : List Char :=
  ((pyStripL t).map (fun c => if c = ' ' then '_' else c)).filter keepChar

/-- The `replace("/", "-")` character map of line 340. -/
def sdChar (c : Char) : Char := if c = '/' then '-' else c

/-- `stem.replace("/", "-")` on a single-character pattern is a character
map. -/
def mapSD (s : List Char) : List Char := s.map sdChar

/-- The `".html"` suffix as characters. -/
def htmlSuffix : List Char := ['.', 'h', 't', 'm', 'l']

/-- The filename derivation of `scrap_page` (lines 340-344): tail of the
URL after at most three `/`-splits with slashes dashed; the sanitized
title instead when that stem starts with `?`; a `".html"` suffix appended
unless already present as the last five characters. -/
def derive_filename (url title : List Char) : List Char :=
  let stem := mapSD (pySplitTail '/' 3 url)
  let stem := if startsWithL ['?'] stem then title_to_filename title else stem
  if lastN 5 stem = htmlSuffix then stem else stem ++ htmlSuffix

/-! ### Artifact assembly (lines 183-190, 363-368) -/

/-- The constant `Scrapper.HTML` template parsed, whitespace-only text
nodes omitted. -/
def templateShell : Node :=
  .elem "html" [] [] [.elem "head" [] [] [], .elem "body" [] [] []]

/-- The `<title>` node built at lines 365-366. -/
def titleTag (title : String) : Node := .elem "title" [] [] [.text title]

mutual

/-- `doc.<t>.append(child)`: append `child` as last child of the first
`t`-tagged node in document order; the Bool reports whether a target was
found. -/
def appendIntoN (t : String) (child : Node) : Node → (Node × Bool)
  | .text s => (.text s, false)
  | .elem tag cls attrs ch =>
    if tag = t then (.elem tag cls attrs (ch ++ [child]), true)
    else
      match appendIntoL t child ch with
      | (ch2, found) => (.elem tag cls attrs ch2, found)

/-- `appendIntoN` over a list of sibling subtrees (first match wins). -/
def appendIntoL (t : String) (child : Node) : List Node → (List Node × Bool)
  | [] => ([], false)
  | n :: rest =>
    match appendIntoN t child n with
    | (n2, true) => (n2 :: rest, true)
    | (n2, false) =>
      match appendIntoL t child rest with
      | (rest2, found) => (n2 :: rest2, found)

end

/-- The artifact document assembled by `scrap_page` (lines 363-368): the
template shell passed through `clean_html`, the title appended into its
head, and the extracted container appended into its body UNMODIFIED —
`clean_html` is applied to the freshly built empty template only, never to
`post`. -/
def scrap_artifact (title : String) (post : Node) : Node :=
  let opost := clean_html templateShell
  let opost := ((appendIntoN "head" (titleTag title) opost).1)
  ((appendIntoN "body" post opost).1)

/-! ### `scrap_page` (lines 321-376) -/

/-- The network/disk effects of one `scrap_page` call: article-page URLs
requested and `(filename, document)` pairs written (the follow-up
markdown conversion is an external collaborator and is not modelled). -/
structure PageEffects where
  requests : List String
  saved : List (String × Node)

/-- Lines 321-344 of `scrap_page`: swap the summary for its entry-title
heading in WordPress mode, take the first anchor (`none`: the
link-not-found warning return), read its href (unguarded: `Except.error`),
absolutize and rstrip the URL, pick the title from the `title` attribute
or the link text, and derive the cache filename. -/
def article_target (mode : Mode) (selfUrl : String) (summary : Node) :
    Except String (Option (String × String × String)) :=
  let content :=
    if mode = .WORDPRESS then
      match findN (isTagClassP "h1" "entry-title") summary with
      | some e => e
      | none =>
        match findN (isTagClassP "h2" "entry-title") summary with
        | some e => e
        | none => summary
    else summary
  match findN (isTagP "a") content with
  | none => .ok none
  | some link =>
    match attrOf link "href" with
    | none => .error "KeyError: href"
    | some href =>
      let url := strRstripSlash href
      let url := if strStartsWith url "/" then selfUrl ++ url else url
      let title :=
        match attrOf link "title" with
        | some t => t
        | none => textOfNode link
      let fname := String.mk (derive_filename url.toList title.toList)
      .ok (some (url, title, fname))

/-- `Scrapper.scrap_page` (lines 321-376) as an effect function: `fsHas`
is `saveat.is_file()` on the computed filename, `fetch` the HTTP layer.
On a cache hit with `force` unset it returns before any request (line
353); otherwise it fetches the article page, extracts the container, and
saves the assembled artifact when a container was found. -/
def scrap_page_effects (mode : Mode) (selfUrl : String) (summary : Node)
    (force : Bool) (fsHas : String → Bool) (fetch : String → Node) :
    Except String PageEffects :=
  match article_target mode selfUrl summary with
  | .error e => .error e
  | .ok none => .ok ⟨[], []⟩
  | .ok (some (url, title, fname)) =>
    if !force && fsHas fname then .ok ⟨[], []⟩
    else
      let page := fetch url
      match extract_post mode page with
      | some post => .ok ⟨[url], [(fname, scrap_artifact title post)]⟩
      | none => .ok ⟨[url], []⟩

/-! ### Crawl orchestrator (lines 205-221, 384-422) -/

/-- The per-site crawl state mutated by `scrap` (the visited set is kept
as a separate loop argument; the counter affects logging only). -/
structure ScrapState where
  mode : Mode
  nav : String
  files : List String

/-- The per-article half of the listing pass (lines 216-217): run
`scrap_page` on each summary, accumulating saved filenames as the on-disk
state and propagating any exception. -/
def process_articles (mode : Mode) (selfUrl : String) (force : Bool)
    (fetch : String → Node) : List Node → List String → Except String (List String)
  | [], files => .ok files
  | a :: rest, files =>
    match scrap_page_effects mode selfUrl a force (fun f => files.contains f) fetch with
    | .error e => .error e
    | .ok eff => process_articles mode selfUrl force fetch rest (files ++ eff.saved.map Prod.fst)

/-- One iteration body of the `scrap` while-loop after the cycle guard
(lines 212-221): fetch, classify, list, process articles, then either stop
(single-page mode sets `url = None` without touching the label) or ask the
pagination walker for the next URL. -/
def scrap_step (pages : String → Node) (selfUrl : String) (force only_first : Bool)
    (s : ScrapState) (url : String) : Except String (Option String × ScrapState) :=
  let page := pages url
  match autoconfigure s.mode selfUrl page with
  | .error e => .error e
  | .ok mode =>
    match list_articles mode page with
    | .error e => .error e
    | .ok arts =>
      match process_articles mode selfUrl force pages arts s.files with
      | .error e => .error e
      | .ok files2 =>
        if only_first then .ok (none, ⟨mode, s.nav, files2⟩)
        else
          match extract_next_url mode s.nav selfUrl page with
          | .error e => .error e
          | .ok (next, nav2) => .ok (next, ⟨mode, nav2, files2⟩)

/-- `Scrapper.scrap` (lines 205-221) as a fuelled loop returning the trace
of listing-page URLs fetched, in order: the visited-set membership check
(line 209) runs BEFORE the fetch inside `scrap_step`; an uncaught
exception aborts the walk. -/
def scrap_loop (pages : String → Node) (selfUrl : String) (force only_first : Bool) :
    Nat → List String → ScrapState → Option String → List String
  | 0, _, _, _ => []
  | _ + 1, _, _, none => []
  | fuel + 1, visited, s, some url =>
    if url ∈ visited then []
    else
      url ::
        (match scrap_step pages selfUrl force only_first s url with
        | .error _ => []
        | .ok (next, s2) =>
          scrap_loop pages selfUrl force only_first fuel (url :: visited) s2 next)

/-- The initial per-site state of `Scrapper.__init__` (lines 192-203). -/
def initState : ScrapState := ⟨.UNKNOWN, "", []⟩

/-- The `scrap <URL>` command path of `main` (lines 410-415): rstrip the
trailing slash and call `scrapper.scrap(force)` — `only_first_page` is
left at its default `False`. -/
def scrap_command (rawUrl : String) (pages : String → Node) (force : Bool)
    (fuel : Nat) : List String :=
  let url := strRstripSlash rawUrl
  scrap_loop pages url force false fuel [] initState (some url)

/-- One site of `do_refresh` (lines 143-145):
`scrapper.scrap(force, only_first_page=False)`. -/
def refresh_site (url : String) (pages : String → Node) (force : Bool)
    (fuel : Nat) : List String :=
  scrap_loop pages url force false fuel [] initState (some url)

/-! ### URL ledger (lines 74-80, 410-413) -/

/-- Python `readlines()`: the lines of the content with their terminating
newline characters kept. -/
def readlinesGo (cur : List Char) : List Char → List (List Char)
  | [] => if cur.isEmpty then [] else [cur.reverse]
  | c :: rest =>
    if c = '\n' then (cur.reverse ++ ['\n']) :: readlinesGo [] rest
    else readlinesGo (c :: cur) rest

/-- `readlines()` of a whole file. -/
def readlinesL (s : List Char) : List (List Char) := readlinesGo [] s

/-- `load_cached_urls()` (lines 74-80): the ledger file modelled as
`Option` content — `none` when `.urls` is not a file, in which case the
`urls = []` initialisation is returned; otherwise the stripped lines. -/
def load_cached_urls (file : Option (List Char)) : List String :=
  match file with
  | none => []
  | some content => (readlinesL content).map (fun l => String.mk (pyStripL l))

/-- The ledger append of `main`'s scrap branch (lines 412-413): append the
URL unless already present. -/
def main_ledger_append (urls : List String) (url : String) : List String :=
  if url ∈ urls then urls else urls ++ [url]

/-! ### Spec-side comparators -/

/-- Modelled from the spec: a summary is kept by the listing exactly when
it has an anchor and that first anchor's href does not start with the
feed-aggregator or audio noise prefixes (section 4.2 of the spec). -/
def spec_keeps_summary (a : Node) : Bool :=
  match findN (isTagP "a") a with
  | none => false
  | some link =>
    match attrOf link "href" with
    | none => false
    | some h => !(strStartsWith h noiseFeedburner || strStartsWith h noiseAudio)

/-- The totality precondition of the noise filter: when a summary has a
first anchor, that anchor carries an href. -/
def summaryHrefOk (a : Node) : Bool :=
  match findN (isTagP "a") a with
  | none => true
  | some link => (attrOf link "href").isSome

/-- A scheme-and-host URL built from a slash-free host and a path. -/
def mkUrl (host p : List Char) : List Char :=
  ['h', 't', 't', 'p', ':'] ++ '/' :: ('/' :: (host ++ '/' :: p))

/-- Whether an `Except`-wrapped `scrap_page` outcome saved only documents
free of `clean_html`'s noise nodes (vacuously true on an error). -/
def artifactNoiseFree (r : Except String PageEffects) : Bool :=
  match r with
  | .ok e => e.saved.all (fun pr => (findAllN isNoise pr.2).isEmpty)
  | .error _ => true

/-! ### Concrete fixtures for witnesses and counterexamples -/

/-- An article summary whose permalink anchor points at `http://h/a/b`. -/
def summaryB : Node :=
  .elem "article" [] [] [.elem "a" [] [("href", "http://h/a/b")] [.text "Post"]]

/-- An article page whose `entry-content` container holds a `script` and a
`sharedaddy` div among its content. -/
def articlePageB : Node :=
  .elem "html" [] []
    [.elem "div" ["entry-content"] []
      [.elem "script" [] [] [.text "x()"],
       .elem "div" ["sharedaddy"] [] [],
       .text "hello"]]

/-- An HTTP layer always serving `articlePageB`. -/
def fetchB : String → Node := fun _ => articlePageB

/-- An article summary whose permalink anchor points at `http://h/a/c`. -/
def summaryC : Node :=
  .elem "article" [] [] [.elem "a" [] [("href", "http://h/a/c")] [.text "PostC"]]

/-- An HTTP layer serving pages with no recognisable content container. -/
def fetchEmpty : String → Node := fun _ => .elem "html" [] [] []

/-- A filesystem on which exactly `a-c.html` exists. -/
def fsC : String → Bool := fun f => f = "a-c.html"

/-- A navigation container with two anchors, neither of whose texts
mentions the label "Older". -/
def divNavHome : Node :=
  .elem "div" ["navigation"] []
    [.elem "a" [] [("href", "/n")] [.text "Newer Posts"],
     .elem "a" [] [("href", "/h")] [.text "Home"]]

/-- A listing page holding only `divNavHome`. -/
def pageNavHome : Node := .elem "html" [] [] [divNavHome]

/-- A listing page whose only summary has an anchor without an href. -/
def pageNoHref : Node :=
  .elem "html" [] [] [.elem "article" [] [] [.elem "a" [] [] [.text "x"]]]

/-- A first listing page: no articles, one `navigation` container linking
to `/page2`. -/
def pageOne : Node :=
  .elem "html" [] []
    [.elem "div" ["navigation"] [] [.elem "a" [] [("href", "/page2")] [.text "Older"]]]

/-- A two-page site: the root serves `pageOne`, anything else an empty
document (whose pagination walk finds no link). -/
def siteTwoPages : String → Node := fun u =>
  if u = "http://w.wordpress.test" then pageOne else .elem "html" [] [] []

/-- A listing page with three summaries: a feedburner-linked one, a normal
one, and one with no anchor at all. -/
def pageListing : Node :=
  .elem "html" [] []
    [.elem "article" [] [] [.elem "a" [] [("href", "http://feeds.feedburner.com/x")] [.text "F"]],
     .elem "article" [] [] [.elem "a" [] [("href", "http://h/p/q")] [.text "Q"]],
     .elem "article" [] [] [.text "no link"]]

/-! ### Helper lemmas -/

/-- The Python loop leak characterised: the label scan yields the first
anchor whose text contains the label, else the last anchor, else none. -/
theorem pickByNav_find (nav : String) :
    ∀ l : List Node,
      pickByNav nav l =
        match l.find? (fun a => strHas (textOfNode a) nav) with
        | some x => some x
        | none => l.getLast?
  | [] => rfl
  | [a] => by
    cases h : strHas (textOfNode a) nav <;>
      simp [pickByNav, List.find?_cons, h]
  | a :: b :: rest => by
    have ih := pickByNav_find nav (b :: rest)
    cases h : strHas (textOfNode a) nav
    · simp only [pickByNav, h, Bool.false_eq_true, if_false, List.find?_cons,
        List.getLast?_cons_cons]
      rw [ih, List.find?_cons]
    · simp [pickByNav, h, List.find?_cons]

/-- A `None` current URL ends the walk at once. -/
theorem scrap_loop_none (pages : String → Node) (selfUrl : String)
    (force only_first : Bool) (fuel : Nat) (visited : List String)
    (s : ScrapState) :
    scrap_loop pages selfUrl force only_first fuel visited s none = [] := by
  cases fuel <;> rfl

/-- In single-page mode a successful step never yields a next URL. -/
theorem scrap_step_only_first (pages : String → Node) (selfUrl : String)
    (force : Bool) (s : ScrapState) (url : String)
    (r : Option String × ScrapState)
    (h : scrap_step pages selfUrl force true s url = .ok r) :
    r.1 = none := by
  simp only [scrap_step] at h
  split at h
  · cases h
  · split at h
    · cases h
    · split at h
      · cases h
      · simp only [if_true] at h
        cases h
        rfl

/-- `breakAt` splits at the first occurrence of the separator. -/
theorem breakAt_not_mem (c : Char) (ys : List Char) :
    ∀ xs : List Char, c ∉ xs → breakAt c (xs ++ c :: ys) = some (xs, ys) := by
  intro xs
  induction xs with
  | nil => intro _; simp [breakAt]
  | cons x xs ih =>
    intro h
    have hx : ¬(x = c) := fun he => h (he ▸ List.mem_cons_self x xs)
    have hxs : c ∉ xs := fun hm => h (List.mem_cons_of_mem x hm)
    have ih2 := ih hxs
    simp [breakAt, if_neg hx, ih2]

/-- On a well-formed URL with a slash-free host, the three-split tail of
line 340 recovers exactly the path. -/
theorem splitTail_mkUrl (host p : List Char) (h : '/' ∉ host) :
    pySplitTail '/' 3 (mkUrl host p) = p := by
  have h1 : breakAt '/' (mkUrl host p) =
      some (['h', 't', 't', 'p', ':'], '/' :: (host ++ '/' :: p)) :=
    breakAt_not_mem '/' ('/' :: (host ++ '/' :: p)) ['h', 't', 't', 'p', ':']
      (by decide)
  have h2 : breakAt '/' ('/' :: (host ++ '/' :: p)) =
      some ([], host ++ '/' :: p) := by
    simp [breakAt]
  have h3 : breakAt '/' (host ++ '/' :: p) = some (host, p) :=
    breakAt_not_mem '/' p host h
  simp only [pySplitTail, h1, h2, h3]

/-- The slash-to-dash map is injective on dash-free character lists. -/
theorem sd_inj : ∀ p1 p2 : List Char, '-' ∉ p1 → '-' ∉ p2 →
    mapSD p1 = mapSD p2 → p1 = p2
  | [], [], _, _, _ => rfl
  | [], _ :: _, _, _, h => by cases h
  | _ :: _, [], _, _, h => by cases h
  | a :: p1, b :: p2, h1, h2, h => by
    have ha : a ≠ '-' := fun he => h1 (he ▸ List.mem_cons_self a p1)
    have hb : b ≠ '-' := fun he => h2 (he ▸ List.mem_cons_self b p2)
    have h1' : '-' ∉ p1 := fun hm => h1 (List.mem_cons_of_mem a hm)
    have h2' : '-' ∉ p2 := fun hm => h2 (List.mem_cons_of_mem b hm)
    simp only [mapSD, List.map_cons, List.cons.injEq] at h
    have hab : a = b := by
      rcases h with ⟨hh, _⟩
      by_cases hA : a = '/' <;> by_cases hB : b = '/' <;>
        simp only [sdChar, hA, hB, if_true, if_false, if_pos, if_neg] at hh <;>
        first
          | exact hA.trans hB.symm
          | exact absurd hh.symm hb
          | exact absurd hh ha
          | exact hh
    have htail : p1 = p2 := sd_inj p1 p2 h1' h2' (by
      rcases h with ⟨_, ht⟩; exact ht)
    rw [hab, htail]

/-- On a summary whose first anchor carries an href, the code's noise test
computes the negation of the spec-side keep predicate. -/
theorem article_filtered_eq (a : Node) (ha : summaryHrefOk a = true) :
    article_filtered a = .ok (!spec_keeps_summary a) := by
  unfold summaryHrefOk at ha
  cases hfind : findN (isTagP "a") a with
  | none =>
    simp [article_filtered, spec_keeps_summary, hfind]
  | some link =>
    rw [hfind] at ha
    cases hattr : attrOf link "href" with
    | none => simp [hattr] at ha
    | some href =>
      simp [article_filtered, spec_keeps_summary, hfind, hattr]

/-- The listing filter agrees with the spec-side keep predicate whenever
every summary's first anchor carries an href. -/
theorem filterSummaries_eq :
    ∀ l : List Node, l.all summaryHrefOk = true →
      filterSummaries l = .ok (l.filter spec_keeps_summary)
  | [], _ => rfl
  | a :: rest, h => by
    have ha : summaryHrefOk a = true := by
      simp only [List.all_cons, Bool.and_eq_true] at h
      exact h.1
    have hrest : rest.all summaryHrefOk = true := by
      simp only [List.all_cons, Bool.and_eq_true] at h
      exact h.2
    have ih := filterSummaries_eq rest hrest
    have hfa := article_filtered_eq a ha
    cases hk : spec_keeps_summary a with
    | true =>
      rw [hk] at hfa
      simp only [filterSummaries, hfa, Bool.not_true, ih, List.filter_cons, hk,
        if_true]
    | false =>
      rw [hk] at hfa
      simp [filterSummaries, hfa, List.filter_cons, hk, ih]

/-- Single-page mode truncates the walk to at most one listing page. -/
theorem scrap_loop_only_first_len (pages : String → Node) (selfUrl : String)
    (force : Bool) :
    ∀ (fuel : Nat) (visited : List String) (s : ScrapState) (u : Option String),
      (scrap_loop pages selfUrl force true fuel visited s u).length ≤ 1 := by
  intro fuel visited s u
  cases fuel with
  | zero => simp [scrap_loop]
  | succ n =>
    cases u with
    | none => simp [scrap_loop]
    | some url =>
      by_cases hv : url ∈ visited
      · simp [scrap_loop, if_pos hv]
      · cases hstep : scrap_step pages selfUrl force true s url with
        | error e => simp [scrap_loop, if_neg hv, hstep]
        | ok r =>
          obtain ⟨next, s2⟩ := r
          have hnone : next = none := scrap_step_only_first _ _ _ _ _ _ hstep
          subst hnone
          simp [scrap_loop, if_neg hv, hstep, scrap_loop_none]

/-! ### Claim theorems -/

/-- C1, counterexample: on an article page whose extracted `entry-content`
container holds a `script` element and a `sharedaddy` div, the caching
path (cache miss, so the artifact is fetched, assembled and saved) writes
an artifact that still CONTAINS those noise descendants — refuting the
claim that the saved artifact document contains none of those nodes. -/
theorem claim_C1_cex :
    artifactNoiseFree
      (scrap_page_effects .WORDPRESS "http://h" summaryB false
        (fun _ => false) fetchB) = false := by
  rfl

/-- C1, amended: the caching path applies `clean_html` only to the freshly
built empty template; the extracted container is appended to the
artifact's body unmodified, so for every title and every extracted
container the assembled artifact is exactly the template shell with the
title in its head and the raw container in its body — noise descendants of
the container survive into the saved artifact. -/
theorem claim_C1_amended (title : String) (post : Node) :
    scrap_artifact title post =
      .elem "html" [] []
        [.elem "head" [] [] [titleTag title], .elem "body" [] [] [post]] := by
  rfl

/-- C2, counterexample: in WordPress mode with captured label "Older", on a
page whose first (and only) matching navigation container has two anchors
("Newer Posts" and "Home"), no anchor's text equals — or even contains —
the label, yet `extract_next_url` still returns a link from that container
(the LAST anchor, "Home"), refuting the claim that it yields no link from
the container in that case. -/
theorem claim_C2_cex :
    ((findAllN (isTagP "a") divNavHome).all
        (fun a => !strHas (textOfNode a) "Older") = true) ∧
      extract_next_url .WORDPRESS "Older" "http://w" pageNavHome =
        .ok (some "http://w/h", "Older") := by
  exact ⟨rfl, rfl⟩

/-- C2, amended: in WordPress mode with a captured label, the per-container
anchor scan selects the FIRST anchor whose text CONTAINS the label as a
substring; when no anchor's text contains the label it selects the LAST
anchor of the container; only a container with no anchors at all yields no
link (falling through to the next container key or the generic
fallbacks). -/
theorem claim_C2_amended (nav : String) (div : Node) (hnav : ¬nav = "") :
    wpDivLink nav div =
      match (findAllN (isTagP "a") div).find?
          (fun a => strHas (textOfNode a) nav) with
      | some l => some l
      | none => (findAllN (isTagP "a") div).getLast? := by
  unfold wpDivLink
  rw [if_neg hnav]
  exact pickByNav_find nav (findAllN (isTagP "a") div)

/-- C2, witness: the amended characterisation evaluated on the concrete
two-anchor navigation container with label "Older". -/
theorem claim_C2_witness :
    (¬("Older" : String) = "") ∧
      wpDivLink "Older" divNavHome =
        match (findAllN (isTagP "a") divNavHome).find?
            (fun a => strHas (textOfNode a) "Older") with
        | some l => some l
        | none => (findAllN (isTagP "a") divNavHome).getLast? :=
  ⟨by decide, claim_C2_amended "Older" divNavHome (by decide)⟩

/-- C7: `autoconfigure` is a no-op whenever the mode has already resolved:
for any root URL and any page, a mode other than `UNKNOWN` is returned
unchanged (and no classification code runs). -/
theorem claim_C7 (mode : Mode) (selfUrl : String) (content : Node)
    (h : mode ≠ .UNKNOWN) :
    autoconfigure mode selfUrl content = .ok mode := by
  cases mode with
  | UNKNOWN => exact absurd rfl h
  | BLOGSPOT => rfl
  | WORDPRESS => rfl

/-- C7, witness: the no-op evaluated at WordPress mode on a concrete
page. -/
theorem claim_C7_witness :
    (Mode.WORDPRESS ≠ Mode.UNKNOWN) ∧
      autoconfigure .WORDPRESS "http://w" pageNavHome = .ok .WORDPRESS :=
  ⟨by decide, claim_C7 .WORDPRESS "http://w" pageNavHome (by decide)⟩

/-- C9: the listing noise filter accesses the first anchor's href
unguarded, so on a concrete page containing a summary whose first anchor
has no href attribute, `list_articles` fails with the attribute-lookup
error instead of including or excluding that summary. -/
theorem claim_C9 :
    list_articles .WORDPRESS pageNoHref = .error "KeyError: href" := by
  rfl

/-- C10: loading the URL ledger when the `.urls` file does not exist
returns the empty list (no error is possible: the loader is total), and
the scrap command's ledger append then grows that empty ledger by the new
site URL. -/
theorem claim_C10 (u : String) :
    load_cached_urls none = [] ∧
      main_ledger_append (load_cached_urls none) u = [u] := by
  refine ⟨rfl, ?_⟩
  simp [load_cached_urls, main_ledger_append]

/-- C3, amended: for an article whose computed cache filename exists on
disk, `scrap_page` with `force=false` returns before issuing any HTTP
request and saves nothing; with `force=true` it fetches the article page
and, WHEN a content container is found, overwrites the artifact — when no
container is found it saves nothing and the old artifact is left in
place. -/
theorem claim_C3_amended (mode : Mode) (selfUrl : String) (summary : Node)
    (fsHas : String → Bool) (fetch : String → Node) (u t f : String)
    (htarget : article_target mode selfUrl summary = .ok (some (u, t, f)))
    (hfs : fsHas f = true) :
    scrap_page_effects mode selfUrl summary false fsHas fetch = .ok ⟨[], []⟩ ∧
      scrap_page_effects mode selfUrl summary true fsHas fetch =
        .ok ⟨[u],
          match extract_post mode (fetch u) with
          | some post => [(f, scrap_artifact t post)]
          | none => []⟩ := by
  constructor
  · simp only [scrap_page_effects, htarget]
    simp [hfs]
  · simp only [scrap_page_effects, htarget]
    cases hpost : extract_post mode (fetch u) <;> simp [hpost]

/-- C3, witness: the amended statement evaluated on a concrete cached
article (`a-c.html` on disk) against a server whose pages carry no
recognisable container. -/
theorem claim_C3_witness :
    (article_target .WORDPRESS "http://h" summaryC =
        .ok (some ("http://h/a/c", "PostC", "a-c.html"))) ∧
      fsC "a-c.html" = true ∧
      (scrap_page_effects .WORDPRESS "http://h" summaryC false fsC fetchEmpty =
          .ok ⟨[], []⟩ ∧
        scrap_page_effects .WORDPRESS "http://h" summaryC true fsC fetchEmpty =
          .ok ⟨["http://h/a/c"],
            match extract_post .WORDPRESS (fetchEmpty "http://h/a/c") with
            | some post => [("a-c.html", scrap_artifact "PostC" post)]
            | none => []⟩) :=
  ⟨rfl, rfl,
    claim_C3_amended .WORDPRESS "http://h" summaryC fsC fetchEmpty
      "http://h/a/c" "PostC" "a-c.html" rfl rfl⟩

/-- C3, counterexample: with the artifact `a-c.html` present and
`force=true`, the article page is fetched but — the page having no
recognisable content container — nothing is written: the claim's
unconditional "overwrites the artifact" fails at this input. -/
theorem claim_C3_cex :
    fsC "a-c.html" = true ∧
      scrap_page_effects .WORDPRESS "http://h" summaryC true fsC fetchEmpty =
        .ok ⟨["http://h/a/c"], []⟩ :=
  ⟨rfl, rfl⟩

/-- C4, counterexample: the `scrap` command path of `main` leaves
`only_first_page` at its default `False`, so on a concrete two-page site
it fetches BOTH listing pages — refuting the claim that pagination is
skipped unconditionally after the first listing pass. -/
theorem claim_C4_cex :
    scrap_command "http://w.wordpress.test/" siteTwoPages false 5 =
      ["http://w.wordpress.test", "http://w.wordpress.test/page2"] := by
  rfl

/-- C4, amended: both the `scrap` command and a `refresh` of the same site
walk the full pagination chain — `scrap` invokes the crawl with
`only_first_page=False` exactly as `refresh` does, so their listing-page
traces coincide; the single-page mode exists in the code (with the flag
set, any walk fetches at most one listing page) but no command invokes
it. -/
theorem claim_C4_amended (rawUrl selfUrl : String) (pages : String → Node)
    (force : Bool) (fuel : Nat) (visited : List String) (s : ScrapState)
    (u : Option String) :
    scrap_command rawUrl pages force fuel =
        refresh_site (strRstripSlash rawUrl) pages force fuel ∧
      (scrap_loop pages selfUrl force true fuel visited s u).length ≤ 1 :=
  ⟨rfl, scrap_loop_only_first_len pages selfUrl force fuel visited s u⟩

/-- C5: within one crawl run the listing-page fetch trace never repeats a
URL (the visited-set membership check precedes the fetch), and never
contains a URL already in the visited set — so a next-page URL pointing
back at a visited page ends the walk without a further request. -/
theorem claim_C5 (pages : String → Node) (selfUrl : String)
    (force only_first : Bool) :
    ∀ (fuel : Nat) (visited : List String) (s : ScrapState) (u : Option String),
      (scrap_loop pages selfUrl force only_first fuel visited s u).Nodup ∧
        ∀ x ∈ scrap_loop pages selfUrl force only_first fuel visited s u,
          x ∉ visited := by
  intro fuel
  induction fuel with
  | zero =>
    intro visited s u
    exact ⟨List.nodup_nil, fun x hx => absurd hx (List.not_mem_nil x)⟩
  | succ n ih =>
    intro visited s u
    cases u with
    | none =>
      exact ⟨List.nodup_nil, fun x hx => absurd hx (List.not_mem_nil x)⟩
    | some url =>
      by_cases hv : url ∈ visited
      · constructor
        · simp only [scrap_loop, if_pos hv]
          exact List.nodup_nil
        · intro x hx
          simp only [scrap_loop, if_pos hv] at hx
          exact absurd hx (List.not_mem_nil x)
      · cases hstep : scrap_step pages selfUrl force only_first s url with
        | error e =>
          constructor
          · simp only [scrap_loop, if_neg hv, hstep]
            exact List.nodup_singleton url
          · intro x hx
            simp only [scrap_loop, if_neg hv, hstep] at hx
            have hxu : x = url := List.mem_singleton.mp hx
            exact hxu ▸ hv
        | ok r =>
          obtain ⟨next, s2⟩ := r
          have h1 := ih (url :: visited) s2 next
          constructor
          · simp only [scrap_loop, if_neg hv, hstep]
            refine List.nodup_cons.mpr ⟨fun hmem => ?_, h1.1⟩
            exact (h1.2 url hmem) (List.mem_cons_self url visited)
          · intro x hx
            simp only [scrap_loop, if_neg hv, hstep] at hx
            rcases List.mem_cons.mp hx with hxu | hxr
            · exact hxu ▸ hv
            · intro hxv
              exact (h1.2 x hxr) (List.mem_cons_of_mem url hxv)

/-- C5, witness: the no-revisit property evaluated on the concrete
two-page site with a nonempty initial visited set. -/
theorem claim_C5_witness :
    (scrap_loop siteTwoPages "http://w.wordpress.test" false false 5
        ["http://v"] initState (some "http://w.wordpress.test")).Nodup ∧
      ∀ x ∈ scrap_loop siteTwoPages "http://w.wordpress.test" false false 5
          ["http://v"] initState (some "http://w.wordpress.test"),
        x ∉ ["http://v"] :=
  claim_C5 siteTwoPages "http://w.wordpress.test" false false 5
    ["http://v"] initState (some "http://w.wordpress.test")

/-- C6, counterexample: the permalinks `http://h/a/b` and `http://h/a-b`
are distinct and differ only in their path, yet both derive the cache
filename `a-b.html` — refuting the claimed injectivity on path-differing
permalinks. -/
theorem claim_C6_cex :
    derive_filename "http://h/a/b".toList [] =
        derive_filename "http://h/a-b".toList [] ∧
      ("http://h/a/b" : String) ≠ "http://h/a-b" :=
  ⟨rfl, by decide⟩

/-- C6, amended: filename derivation is a pure function of permalink and
title (determinism is immediate), and two permalinks on the same
slash-free host that differ only in their paths derive DIFFERENT filenames
provided the paths are dash-free, do not start the derived stem with `?`,
and do not already end in `.html` — without those provisos, distinct paths
identified by the slash-to-dash replacement (or by the `.html` suffixing)
collide. -/
theorem claim_C6_amended (host p1 p2 t1 t2 : List Char)
    (hhost : '/' ∉ host) (hd1 : '-' ∉ p1) (hd2 : '-' ∉ p2)
    (hq1 : startsWithL ['?'] (mapSD p1) = false)
    (hq2 : startsWithL ['?'] (mapSD p2) = false)
    (hh1 : ¬lastN 5 (mapSD p1) = htmlSuffix)
    (hh2 : ¬lastN 5 (mapSD p2) = htmlSuffix)
    (hne : p1 ≠ p2) :
    derive_filename (mkUrl host p1) t1 ≠ derive_filename (mkUrl host p2) t2 := by
  have e1 : derive_filename (mkUrl host p1) t1 = mapSD p1 ++ htmlSuffix := by
    unfold derive_filename
    rw [splitTail_mkUrl host p1 hhost]
    simp only [hq1, Bool.false_eq_true, if_false, if_neg hh1]
  have e2 : derive_filename (mkUrl host p2) t2 = mapSD p2 ++ htmlSuffix := by
    unfold derive_filename
    rw [splitTail_mkUrl host p2 hhost]
    simp only [hq2, Bool.false_eq_true, if_false, if_neg hh2]
  rw [e1, e2]
  intro heq
  exact hne (sd_inj p1 p2 hd1 hd2 (List.append_cancel_right heq))

/-- C6, witness: the amended injectivity evaluated on the host `h` and the
paths `a/b` and `a/c`. -/
theorem claim_C6_witness :
    ('/' ∉ (['h'] : List Char)) ∧ ('-' ∉ (['a', '/', 'b'] : List Char)) ∧
      ('-' ∉ (['a', '/', 'c'] : List Char)) ∧
      startsWithL ['?'] (mapSD ['a', '/', 'b']) = false ∧
      startsWithL ['?'] (mapSD ['a', '/', 'c']) = false ∧
      (¬lastN 5 (mapSD ['a', '/', 'b']) = htmlSuffix) ∧
      (¬lastN 5 (mapSD ['a', '/', 'c']) = htmlSuffix) ∧
      (['a', '/', 'b'] : List Char) ≠ ['a', '/', 'c'] ∧
      derive_filename (mkUrl ['h'] ['a', '/', 'b']) [] ≠
        derive_filename (mkUrl ['h'] ['a', '/', 'c']) [] :=
  ⟨by decide, by decide, by decide, by decide, by decide, by decide, by decide,
    by decide,
    claim_C6_amended ['h'] ['a', '/', 'b'] ['a', '/', 'c'] [] []
      (by decide) (by decide) (by decide) (by decide) (by decide) (by decide)
      (by decide) (by decide)⟩

/-- C8: whenever every listed summary's first anchor carries an href, the
listing returns exactly the candidate summaries — in document order — that
the spec-side keep predicate retains: summaries whose first anchor's href
starts with the feed-burner or audio noise prefixes are excluded, and
summaries containing no anchor at all are excluded. -/
theorem claim_C8 (mode : Mode) (content : Node)
    (h : (list_candidates mode content).all summaryHrefOk = true) :
    list_articles mode content =
      .ok ((list_candidates mode content).filter spec_keeps_summary) :=
  filterSummaries_eq _ h

/-- C8, witness: the listing characterisation evaluated on a concrete page
with a feedburner-linked summary, a normal summary and an anchor-less
summary. -/
theorem claim_C8_witness :
    ((list_candidates .WORDPRESS pageListing).all summaryHrefOk = true) ∧
      list_articles .WORDPRESS pageListing =
        .ok ((list_candidates .WORDPRESS pageListing).filter spec_keeps_summary) :=
  ⟨rfl, claim_C8 .WORDPRESS pageListing rfl⟩

end Blog
